import Mathlib

/-!
Verification of the growbox actuator arbitration engine
(`backend/llm.py`, `backend/main.py`, `backend/shared_state.py`).

Python dictionaries (`last_decision`, `manual_lock`, JSON decisions,
request payloads) are embedded as association lists with Python `dict`
semantics: lookup finds the first (unique) matching key, assignment
replaces in place or appends, `pop` removes, `update` folds assignment
over the other dict. Timestamps are integers; lock expiries are either a
finite timestamp or `float("inf")` (an indefinite lock, `duration = 0`).
The HTTP effector (`tasmota.cmd`) and the spawning of a pump run thread
are modelled as emitted effects.
-/

set_option autoImplicit false

namespace Growbox

/-- Python `d.get(k)` / `d[k]` on an association list: first entry wins. -/
def dget {α : Type} (d : List (String × α)) (k : String) : Option α :=
  match d with
  | [] => none
  | (k', v) :: t => if k' = k then some v else dget t k

/-- Python `d[k] = v`: replace the entry in place, or append a new one. -/
def dset {α : Type} (d : List (String × α)) (k : String) (v : α) :
    List (String × α) :=
  match d with
  | [] => [(k, v)]
  | (k', v') :: t => if k' = k then (k', v) :: t else (k', v') :: dset t k v

/-- Python `d.pop(k, None)`: drop every entry with key `k`. -/
def dpop {α : Type} (d : List (String × α)) (k : String) :
    List (String × α) :=
  d.filter (fun p => p.1 ≠ k)

/-- Python `k in d`. -/
def hasKey {α : Type} (d : List (String × α)) (k : String) : Bool :=
  (dget d k).isSome

/-- Python `d.update(e)`: assign every entry of `e` into `d`, in order. -/
def dupdate {α : Type} (d e : List (String × α)) : List (String × α) :=
  e.foldl (fun acc p => dset acc p.1 p.2) d

/-- A lock expiry: a finite timestamp, or `float("inf")` for `duration = 0`. -/
inductive Expiry where
  | fin (t : ℤ)
  | inf
deriving DecidableEq, Repr

/-- Python `now < expiry` (`inf` compares greater than every timestamp). -/
def expiryLt (now : ℤ) : Expiry → Bool
  | .fin t => now < t
  | .inf => true

/-- The shared mutable state of `backend/shared_state.py`: `last_decision`
(stored actuator state) and `manual_lock` (manual overrides, each a
`(locked_state, expiry)` pair keyed by device). -/
structure GState where
  last_decision : List (String × String)
  manual_lock : List (String × (String × Expiry))
deriving DecidableEq, Repr

/-- `last_decision`'s initial value: every actuator `off`. -/
def initState : GState :=
  ⟨[("fan", "off"), ("light", "off"), ("pump", "off")], []⟩

/-- Observable side effects of the arbitration engine: an HTTP power
command `tasmota.cmd(dev, powerCmd)`, or spawning a `_run_pump` thread. -/
inductive Eff where
  | tas (dev : String) (powerCmd : String)
  | pumpStart
deriving DecidableEq, Repr

/-- Truthiness of the `locked_state and now < expiry` guard in
`decide_actuators`: an entry is an active lock when its locked state is a
non-empty string and its expiry is still in the future. -/
def lockActive (lock : List (String × (String × Expiry))) (dev : String)
    (now : ℤ) : Bool :=
  match dget lock dev with
  | some (ls, e) => (ls ≠ "" : Bool) && expiryLt now e
  | none => false

/-- One iteration of the `for dev in ("fan", "light")` loop of
`decide_actuators` (llm.py lines 110-119), threading the accumulated
`final_decision`, `manual_lock` and emitted effects. -/
def fanLightStep (dev : String) (decision : List (String × String))
    (now : ℤ)
    (acc : List (String × String) × List (String × (String × Expiry)) × List Eff) :
    List (String × String) × List (String × (String × Expiry)) × List Eff :=
  match dget acc.2.1 dev with
  | some (ls, expiry) =>
    if ls ≠ "" ∧ expiryLt now expiry then
      (dset acc.1 dev ls, acc.2.1, acc.2.2)
    else
      (acc.1,
       if ¬ expiryLt now expiry then dpop acc.2.1 dev else acc.2.1,
       acc.2.2 ++ [Eff.tas dev (if dget decision dev = some "on" then "On" else "Off")])
  | none =>
      (acc.1, acc.2.1,
       acc.2.2 ++ [Eff.tas dev (if dget decision dev = some "on" then "On" else "Off")])

/-- The pump section of `decide_actuators` (llm.py lines 122-126): start a
run thread when the oracle says `on` and the stored pump state is not
already `on`; a plain `off` decision just writes `off` into the
`final_decision`. -/
def pumpStep (decision lastDec finalDec : List (String × String))
    (effs : List Eff) : List (String × String) × List Eff :=
  if dget decision "pump" = some "on" ∧ dget lastDec "pump" ≠ some "on" then
    (dset finalDec "pump" "on", effs ++ [Eff.pumpStart])
  else if dget decision "pump" = some "off" then
    (dset finalDec "pump" "off", effs)
  else
    (finalDec, effs)

/-- The result of one `decide_actuators` call: the shared state afterwards,
the effects issued during the call, and the dictionary returned. -/
structure TickResult where
  s : GState
  effs : List Eff
  ret : List (String × String)
deriving DecidableEq, Repr

/-- `decide_actuators` (llm.py lines 81-130), from the point where the
oracle response is in hand. `resp = none` models a `json.JSONDecodeError`;
a `some` dictionary missing one of the keys `fan`, `light`, `pump` is also
rejected, and in both failure cases the call returns `last_decision` with
the state untouched and no effect issued. Otherwise `final_decision`
starts as a copy of the decision, the fan/light loop and the pump section
run, and `last_decision.update(final_decision)` commits the result. -/
def decide_actuators (resp : Option (List (String × String))) (now : ℤ)
    (s : GState) : TickResult :=
  match resp with
  | none => ⟨s, [], s.last_decision⟩
  | some decision =>
    if hasKey decision "fan" && hasKey decision "light" && hasKey decision "pump" then
      let acc1 := fanLightStep "fan" decision now (decision, s.manual_lock, [])
      let acc2 := fanLightStep "light" decision now acc1
      let fe := pumpStep decision s.last_decision acc2.1 acc2.2.2
      ⟨⟨dupdate s.last_decision fe.1, acc2.2.1⟩, fe.2, fe.1⟩
    else ⟨s, [], s.last_decision⟩

/-- A well-formed oracle decision `{"fan": f, "light": l, "pump": p}`. -/
def mkDecision (f l p : String) : List (String × String) :=
  [("fan", f), ("light", l), ("pump", p)]

/-- A concrete state with an unexpired manual override holding the fan `on`. -/
def overrideState : GState :=
  ⟨[("fan", "off"), ("light", "off"), ("pump", "off")],
   [("fan", ("on", Expiry.inf))]⟩

/-- A concrete state in which a pump run is in flight (stored pump state `on`). -/
def pumpOnState : GState :=
  ⟨[("fan", "off"), ("light", "off"), ("pump", "on")], []⟩

/-- A concrete state with an expired manual override on the fan. -/
def expiredState : GState :=
  ⟨[("fan", "on"), ("light", "off"), ("pump", "off")],
   [("fan", ("on", Expiry.fin 50))]⟩

/-- `_run_pump` (llm.py lines 74-78), the body of the automatic pump run
thread: set the stored pump state to `on`, run the driver, set it back to
`off`. There is no exception handler, so when the driver raises
(`driverFails = true`) the thread dies with the pump state still `on`;
the returned Bool records whether the body completed normally. -/
def runPumpAuto (driverFails : Bool) (s : GState) : GState × Bool :=
  let s1 : GState := { s with last_decision := dset s.last_decision "pump" "on" }
  if driverFails then (s1, false)
  else ({ s1 with last_decision := dset s1.last_decision "pump" "off" }, true)

/-- `_run` inside `water_pump` (main.py lines 137-144), the manual pump run
thread: `try` set `on` and run the driver, `except` swallow the failure,
`finally` set the stored pump state to `off`. -/
def runPumpManual (_driverFails : Bool) (s : GState) : GState :=
  let s1 : GState := { s with last_decision := dset s.last_decision "pump" "on" }
  { s1 with last_decision := dset s1.last_decision "pump" "off" }

/-- Python `str.lower` restricted to ASCII, as used on the action path. -/
def pyLower (x : String) : String := ⟨x.data.map Char.toLower⟩

/-- Python `str.capitalize` on ASCII: first character upper-cased, the
rest lower-cased. -/
def pyCapitalize (x : String) : String :=
  match x.data with
  | [] => ⟨[]⟩
  | c :: cs => ⟨c.toUpper :: cs.map Char.toLower⟩

/-- The Python idiom `int(payload.get("duration", dflt)) if payload else noBody`
shared by `toggle_device` and `water_pump`: an absent body — or an empty
dict, which is falsy — yields `noBody`, a non-empty dict its `duration`
entry or `dflt`. -/
def payloadDuration (payload : Option (List (String × ℤ))) (dflt noBody : ℤ) : ℤ :=
  match payload with
  | none => noBody
  | some p => if p.isEmpty then noBody else (dget p "duration").getD dflt

/-- Result of a `toggle_device` call: the shared state afterwards, the
effects issued, the `_auto_release` task scheduled (device, desired
release state, duration in minutes), and whether the action was rejected. -/
structure ToggleResult where
  s : GState
  effs : List Eff
  sched : Option (String × String × ℤ)
  isError : Bool
deriving DecidableEq, Repr

/-- `toggle_device` (main.py lines 93-127): validate the action, send the
power command, and for fan/light record the state (`on` only when the
capitalised command is literally `On`), install the manual lock
(`float("inf")` expiry when `duration = 0`), and schedule an auto release
for positive durations. The payload is `{"duration": minutes}` or absent;
Python's truthiness makes an empty dict behave like an absent one. -/
def toggle_device (dev action0 : String)
    (payload : Option (List (String × ℤ))) (now : ℤ) (s : GState) :
    ToggleResult :=
  let action := pyLower action0
  if action = "on" ∨ action = "off" ∨ action = "toggle" then
    let power_cmd := pyCapitalize action
    let duration : ℤ := payloadDuration payload 0 0
    let effs := [Eff.tas dev power_cmd]
    if dev = "fan" ∨ dev = "light" then
      let state := if power_cmd = "On" then "on" else "off"
      let expiry : Expiry :=
        if duration = 0 then .inf else .fin (now + duration * 60)
      let sched :=
        if duration > 0 then
          some (dev, (if state = "on" then "off" else "on"), duration)
        else none
      ⟨⟨dset s.last_decision dev state, dset s.manual_lock dev (state, expiry)⟩,
       effs, sched, false⟩
    else ⟨s, effs, none, false⟩
  else ⟨s, [], none, true⟩

/-- `_auto_release` (main.py lines 85-90), after its sleep elapses: send
the capitalised desired state to the device, pop whatever manual lock the
device currently holds, and overwrite the stored state with the desired
state. There is no ownership or generation check. -/
def auto_release (dev desired : String) (s : GState) : GState × List Eff :=
  (⟨dset s.last_decision dev desired, dpop s.manual_lock dev⟩,
   [Eff.tas dev (pyCapitalize desired)])

/-- The HTTP response of the pump endpoint. -/
structure PumpResp where
  status : String
  duration : ℤ
deriving DecidableEq, Repr

/-- `water_pump` (main.py lines 130-147): pick the run duration
(`int(payload.get("duration", 5)) if payload else 2`, where an empty dict
is falsy like `None`), then unconditionally spawn a run thread and answer
`{"status": "watering", "duration": seconds}`. The Bool records that a
run thread was spawned; no state is consulted and no `started` field is
ever returned. -/
def water_pump (payload : Option (List (String × ℤ))) : PumpResp × Bool :=
  (⟨"watering", payloadDuration payload 5 2⟩, true)

/-! ## Dictionary lemmas -/

theorem dget_dset_self {α : Type} (d : List (String × α)) (k : String) (v : α) :
    dget (dset d k v) k = some v := by
  induction d with
  | nil => simp [dset, dget]
  | cons hd t ih =>
    obtain ⟨k', v'⟩ := hd
    by_cases h : k' = k
    · subst h; simp [dset, dget]
    · simp [dset, dget, h, ih]

theorem dget_dset_ne {α : Type} (d : List (String × α)) {k' k : String} (v : α)
    (h : k' ≠ k) : dget (dset d k' v) k = dget d k := by
  induction d with
  | nil => simp [dset, dget, h]
  | cons hd t ih =>
    obtain ⟨k1, v1⟩ := hd
    by_cases h1 : k1 = k'
    · subst h1; simp [dset, dget, h]
    · simp [dset, dget, h1, ih]

theorem dget_dpop_self {α : Type} (d : List (String × α)) (k : String) :
    dget (dpop d k) k = none := by
  induction d with
  | nil => simp [dpop, dget]
  | cons hd t ih =>
    obtain ⟨k1, v1⟩ := hd
    by_cases h1 : k1 = k
    · subst h1; simpa [dpop] using ih
    · simpa [dpop, dget, h1] using ih

theorem dget_dpop_ne {α : Type} (d : List (String × α)) {k' k : String}
    (h : k' ≠ k) : dget (dpop d k') k = dget d k := by
  induction d with
  | nil => simp [dpop, dget]
  | cons hd t ih =>
    obtain ⟨k1, v1⟩ := hd
    by_cases h1 : k1 = k'
    · subst h1; simpa [dpop, dget, h] using ih
    · by_cases h2 : k1 = k
      · subst h2; simp [dpop, dget, h1]
      · simpa [dpop, dget, h1, h2] using ih

theorem dget_eq_none_of_not_mem_keys {α : Type} (d : List (String × α))
    {k : String} (h : k ∉ d.map Prod.fst) : dget d k = none := by
  induction d with
  | nil => rfl
  | cons hd t ih =>
    obtain ⟨k1, v1⟩ := hd
    simp only [List.map_cons, List.mem_cons] at h
    push_neg at h
    have h1 : k1 ≠ k := Ne.symm h.1
    simp [dget, h1, ih h.2]

theorem mem_keys_dset {α : Type} (d : List (String × α)) (k x : String) (v : α) :
    x ∈ (dset d k v).map Prod.fst ↔ x ∈ d.map Prod.fst ∨ x = k := by
  induction d with
  | nil => simp [dset]
  | cons hd t ih =>
    obtain ⟨k1, v1⟩ := hd
    by_cases h1 : k1 = k
    · subst h1; simp [dset]; tauto
    · simp [dset, h1, ih]; tauto

theorem nodup_keys_dset {α : Type} (d : List (String × α)) (k : String) (v : α)
    (h : (d.map Prod.fst).Nodup) : ((dset d k v).map Prod.fst).Nodup := by
  induction d with
  | nil => simp [dset]
  | cons hd t ih =>
    obtain ⟨k1, v1⟩ := hd
    simp only [List.map_cons, List.nodup_cons] at h
    by_cases h1 : k1 = k
    · subst h1; simpa [dset] using h
    · simp only [dset, if_neg h1, List.map_cons, List.nodup_cons]
      refine ⟨fun hmem => ?_, ih h.2⟩
      rcases (mem_keys_dset t k k1 v).mp hmem with hm | hm
      · exact h.1 hm
      · exact h1 hm

theorem dget_dupdate_of_none {α : Type} (d e : List (String × α)) (k : String)
    (h : dget e k = none) : dget (dupdate d e) k = dget d k := by
  induction e generalizing d with
  | nil => rfl
  | cons hd t ih =>
    obtain ⟨k1, v1⟩ := hd
    simp only [dget] at h
    by_cases h1 : k1 = k
    · simp [h1] at h
    · rw [if_neg h1] at h
      show dget (dupdate (dset d k1 v1) t) k = dget d k
      rw [ih (dset d k1 v1) h, dget_dset_ne d v1 h1]

theorem dget_dupdate_of_some {α : Type} (d e : List (String × α)) (k : String)
    (v : α) (he : (e.map Prod.fst).Nodup) (h : dget e k = some v) :
    dget (dupdate d e) k = some v := by
  induction e generalizing d with
  | nil => simp [dget] at h
  | cons hd t ih =>
    obtain ⟨k1, v1⟩ := hd
    simp only [List.map_cons, List.nodup_cons] at he
    simp only [dget] at h
    by_cases h1 : k1 = k
    · rw [if_pos h1] at h
      obtain rfl : v1 = v := by injection h
      subst h1
      show dget (dupdate (dset d k1 v1) t) k1 = some v1
      rw [dget_dupdate_of_none (dset d k1 v1) t k1
        (dget_eq_none_of_not_mem_keys t he.1), dget_dset_self]
    · rw [if_neg h1] at h
      show dget (dupdate (dset d k1 v1) t) k = some v
      exact ih (dset d k1 v1) he.2 h

/-! ## Decision dictionary lemmas -/

theorem dget_mkDecision_fan (f l p : String) :
    dget (mkDecision f l p) "fan" = some f := by
  simp [mkDecision, dget]

theorem dget_mkDecision_light (f l p : String) :
    dget (mkDecision f l p) "light" = some l := by
  simp [mkDecision, dget]

theorem dget_mkDecision_pump (f l p : String) :
    dget (mkDecision f l p) "pump" = some p := by
  simp [mkDecision, dget]

theorem mkDecision_hasKeys (f l p : String) :
    (hasKey (mkDecision f l p) "fan" && hasKey (mkDecision f l p) "light" &&
      hasKey (mkDecision f l p) "pump") = true := by
  simp [hasKey, dget_mkDecision_fan, dget_mkDecision_light, dget_mkDecision_pump]

theorem nodup_keys_mkDecision (f l p : String) :
    ((mkDecision f l p).map Prod.fst).Nodup := by
  simp [mkDecision]

/-! ## `fanLightStep` lemmas -/

theorem fanLightStep_locked (dev : String) (decision : List (String × String))
    (now : ℤ)
    (acc : List (String × String) × List (String × (String × Expiry)) × List Eff)
    {ls : String} {e : Expiry}
    (h : dget acc.2.1 dev = some (ls, e)) (hls : ls ≠ "")
    (hlt : expiryLt now e = true) :
    fanLightStep dev decision now acc = (dset acc.1 dev ls, acc.2.1, acc.2.2) := by
  unfold fanLightStep
  rw [h]
  simp [hls, hlt]

theorem fanLightStep_expired (dev : String) (decision : List (String × String))
    (now : ℤ)
    (acc : List (String × String) × List (String × (String × Expiry)) × List Eff)
    {ls : String} {e : Expiry}
    (h : dget acc.2.1 dev = some (ls, e)) (hlt : expiryLt now e = false) :
    fanLightStep dev decision now acc =
      (acc.1, dpop acc.2.1 dev,
       acc.2.2 ++ [Eff.tas dev (if dget decision dev = some "on" then "On" else "Off")]) := by
  unfold fanLightStep
  rw [h]
  simp [hlt]

theorem fanLightStep_nolock (dev : String) (decision : List (String × String))
    (now : ℤ)
    (acc : List (String × String) × List (String × (String × Expiry)) × List Eff)
    (h : dget acc.2.1 dev = none) :
    fanLightStep dev decision now acc =
      (acc.1, acc.2.1,
       acc.2.2 ++ [Eff.tas dev (if dget decision dev = some "on" then "On" else "Off")]) := by
  unfold fanLightStep
  rw [h]

theorem fanLightStep_falsy (dev : String) (decision : List (String × String))
    (now : ℤ)
    (acc : List (String × String) × List (String × (String × Expiry)) × List Eff)
    {e : Expiry}
    (h : dget acc.2.1 dev = some ("", e)) (hlt : expiryLt now e = true) :
    fanLightStep dev decision now acc =
      (acc.1, acc.2.1,
       acc.2.2 ++ [Eff.tas dev (if dget decision dev = some "on" then "On" else "Off")]) := by
  unfold fanLightStep
  rw [h]
  simp [hlt]

theorem fanLightStep_final_ne (dev : String) (decision : List (String × String))
    (now : ℤ)
    (acc : List (String × String) × List (String × (String × Expiry)) × List Eff)
    {k : String} (hk : k ≠ dev) :
    dget (fanLightStep dev decision now acc).1 k = dget acc.1 k := by
  cases hd : dget acc.2.1 dev with
  | none => rw [fanLightStep_nolock dev decision now acc hd]
  | some le =>
    obtain ⟨ls, e⟩ := le
    cases hlt : expiryLt now e with
    | false => rw [fanLightStep_expired dev decision now acc hd hlt]
    | true =>
      by_cases hls : ls = ""
      · subst hls
        rw [fanLightStep_falsy dev decision now acc hd hlt]
      · rw [fanLightStep_locked dev decision now acc hd hls hlt]
        exact dget_dset_ne acc.1 ls (Ne.symm hk)

theorem fanLightStep_lock_ne (dev : String) (decision : List (String × String))
    (now : ℤ)
    (acc : List (String × String) × List (String × (String × Expiry)) × List Eff)
    {k : String} (hk : k ≠ dev) :
    dget (fanLightStep dev decision now acc).2.1 k = dget acc.2.1 k := by
  cases hd : dget acc.2.1 dev with
  | none => rw [fanLightStep_nolock dev decision now acc hd]
  | some le =>
    obtain ⟨ls, e⟩ := le
    cases hlt : expiryLt now e with
    | false =>
      rw [fanLightStep_expired dev decision now acc hd hlt]
      exact dget_dpop_ne acc.2.1 (Ne.symm hk)
    | true =>
      by_cases hls : ls = ""
      · subst hls
        rw [fanLightStep_falsy dev decision now acc hd hlt]
      · rw [fanLightStep_locked dev decision now acc hd hls hlt]

theorem fanLightStep_effs_mem (dev : String) (decision : List (String × String))
    (now : ℤ)
    (acc : List (String × String) × List (String × (String × Expiry)) × List Eff)
    {x : Eff} (hx : x ∈ (fanLightStep dev decision now acc).2.2) :
    x ∈ acc.2.2 ∨ ∃ c, x = Eff.tas dev c := by
  have happ : ∀ h : x ∈ acc.2.2 ++
      [Eff.tas dev (if dget decision dev = some "on" then "On" else "Off")],
      x ∈ acc.2.2 ∨ ∃ c, x = Eff.tas dev c := by
    intro h
    rcases List.mem_append.mp h with h | h
    · exact Or.inl h
    · exact Or.inr ⟨_, List.mem_singleton.mp h⟩
  cases hd : dget acc.2.1 dev with
  | none =>
    rw [fanLightStep_nolock dev decision now acc hd] at hx
    exact happ hx
  | some le =>
    obtain ⟨ls, e⟩ := le
    cases hlt : expiryLt now e with
    | false =>
      rw [fanLightStep_expired dev decision now acc hd hlt] at hx
      exact happ hx
    | true =>
      by_cases hls : ls = ""
      · subst hls
        rw [fanLightStep_falsy dev decision now acc hd hlt] at hx
        exact happ hx
      · rw [fanLightStep_locked dev decision now acc hd hls hlt] at hx
        exact Or.inl hx

theorem fanLightStep_effs_mono (dev : String) (decision : List (String × String))
    (now : ℤ)
    (acc : List (String × String) × List (String × (String × Expiry)) × List Eff)
    {x : Eff} (hx : x ∈ acc.2.2) :
    x ∈ (fanLightStep dev decision now acc).2.2 := by
  cases hd : dget acc.2.1 dev with
  | none =>
    rw [fanLightStep_nolock dev decision now acc hd]
    exact List.mem_append_left _ hx
  | some le =>
    obtain ⟨ls, e⟩ := le
    cases hlt : expiryLt now e with
    | false =>
      rw [fanLightStep_expired dev decision now acc hd hlt]
      exact List.mem_append_left _ hx
    | true =>
      by_cases hls : ls = ""
      · subst hls
        rw [fanLightStep_falsy dev decision now acc hd hlt]
        exact List.mem_append_left _ hx
      · rw [fanLightStep_locked dev decision now acc hd hls hlt]
        exact hx

theorem fanLightStep_keys_nodup (dev : String) (decision : List (String × String))
    (now : ℤ)
    (acc : List (String × String) × List (String × (String × Expiry)) × List Eff)
    (h : (acc.1.map Prod.fst).Nodup) :
    (((fanLightStep dev decision now acc).1).map Prod.fst).Nodup := by
  cases hd : dget acc.2.1 dev with
  | none => rw [fanLightStep_nolock dev decision now acc hd]; exact h
  | some le =>
    obtain ⟨ls, e⟩ := le
    cases hlt : expiryLt now e with
    | false => rw [fanLightStep_expired dev decision now acc hd hlt]; exact h
    | true =>
      by_cases hls : ls = ""
      · subst hls
        rw [fanLightStep_falsy dev decision now acc hd hlt]
        exact h
      · rw [fanLightStep_locked dev decision now acc hd hls hlt]
        exact nodup_keys_dset acc.1 dev ls h

theorem fanLightStep_inactive (dev : String) (decision : List (String × String))
    (now : ℤ)
    (acc : List (String × String) × List (String × (String × Expiry)) × List Eff)
    (h : lockActive acc.2.1 dev now = false) :
    (fanLightStep dev decision now acc).1 = acc.1 ∧
    Eff.tas dev (if dget decision dev = some "on" then "On" else "Off") ∈
      (fanLightStep dev decision now acc).2.2 := by
  cases hd : dget acc.2.1 dev with
  | none =>
    rw [fanLightStep_nolock dev decision now acc hd]
    exact ⟨rfl, List.mem_append_right _ (List.mem_singleton.mpr rfl)⟩
  | some le =>
    obtain ⟨ls, e⟩ := le
    unfold lockActive at h
    rw [hd] at h
    have h' : (decide (ls ≠ "") && expiryLt now e) = false := h
    cases hlt : expiryLt now e with
    | false =>
      rw [fanLightStep_expired dev decision now acc hd hlt]
      exact ⟨rfl, List.mem_append_right _ (List.mem_singleton.mpr rfl)⟩
    | true =>
      by_cases hls : ls = ""
      · subst hls
        rw [fanLightStep_falsy dev decision now acc hd hlt]
        exact ⟨rfl, List.mem_append_right _ (List.mem_singleton.mpr rfl)⟩
      · exfalso
        rw [hlt] at h'
        simp [hls] at h'

/-! ## `pumpStep` lemmas -/

theorem pumpStep_final_ne (decision lastDec finalDec : List (String × String))
    (effs : List Eff) {k : String} (hk : k ≠ "pump") :
    dget (pumpStep decision lastDec finalDec effs).1 k = dget finalDec k := by
  unfold pumpStep
  by_cases h1 : dget decision "pump" = some "on" ∧ dget lastDec "pump" ≠ some "on"
  · rw [if_pos h1]
    exact dget_dset_ne finalDec "on" (Ne.symm hk)
  · rw [if_neg h1]
    by_cases h2 : dget decision "pump" = some "off"
    · rw [if_pos h2]
      exact dget_dset_ne finalDec "off" (Ne.symm hk)
    · rw [if_neg h2]

theorem pumpStep_effs_mem (decision lastDec finalDec : List (String × String))
    (effs : List Eff) {x : Eff}
    (hx : x ∈ (pumpStep decision lastDec finalDec effs).2) :
    x ∈ effs ∨ x = Eff.pumpStart := by
  unfold pumpStep at hx
  by_cases h1 : dget decision "pump" = some "on" ∧ dget lastDec "pump" ≠ some "on"
  · rw [if_pos h1] at hx
    rcases List.mem_append.mp hx with h | h
    · exact Or.inl h
    · exact Or.inr (List.mem_singleton.mp h)
  · rw [if_neg h1] at hx
    by_cases h2 : dget decision "pump" = some "off"
    · rw [if_pos h2] at hx; exact Or.inl hx
    · rw [if_neg h2] at hx; exact Or.inl hx

theorem pumpStep_effs_mono (decision lastDec finalDec : List (String × String))
    (effs : List Eff) {x : Eff} (hx : x ∈ effs) :
    x ∈ (pumpStep decision lastDec finalDec effs).2 := by
  unfold pumpStep
  by_cases h1 : dget decision "pump" = some "on" ∧ dget lastDec "pump" ≠ some "on"
  · rw [if_pos h1]; exact List.mem_append_left _ hx
  · rw [if_neg h1]
    by_cases h2 : dget decision "pump" = some "off"
    · rw [if_pos h2]; exact hx
    · rw [if_neg h2]; exact hx

theorem pumpStep_keys_nodup (decision lastDec finalDec : List (String × String))
    (effs : List Eff) (h : (finalDec.map Prod.fst).Nodup) :
    (((pumpStep decision lastDec finalDec effs).1).map Prod.fst).Nodup := by
  unfold pumpStep
  by_cases h1 : dget decision "pump" = some "on" ∧ dget lastDec "pump" ≠ some "on"
  · rw [if_pos h1]; exact nodup_keys_dset finalDec "pump" "on" h
  · rw [if_neg h1]
    by_cases h2 : dget decision "pump" = some "off"
    · rw [if_pos h2]; exact nodup_keys_dset finalDec "pump" "off" h
    · rw [if_neg h2]; exact h

theorem pumpStep_off (decision lastDec finalDec : List (String × String))
    (effs : List Eff) (h : dget decision "pump" = some "off") :
    pumpStep decision lastDec finalDec effs = (dset finalDec "pump" "off", effs) := by
  unfold pumpStep
  rw [if_neg, if_pos h]
  intro ⟨h1, _⟩
  rw [h] at h1
  simp at h1

theorem pumpStep_effs_of_pump_on (decision lastDec finalDec : List (String × String))
    (effs : List Eff) (h : dget lastDec "pump" = some "on") :
    (pumpStep decision lastDec finalDec effs).2 = effs := by
  unfold pumpStep
  rw [if_neg (fun hc => hc.2 h)]
  by_cases h2 : dget decision "pump" = some "off"
  · rw [if_pos h2]
  · rw [if_neg h2]

/-! ## `decide_actuators` unfolding -/

theorem decide_actuators_valid (decision : List (String × String)) (now : ℤ)
    (s : GState)
    (h : (hasKey decision "fan" && hasKey decision "light" &&
          hasKey decision "pump") = true) :
    decide_actuators (some decision) now s =
      ⟨⟨dupdate s.last_decision
          (pumpStep decision s.last_decision
            (fanLightStep "light" decision now
              (fanLightStep "fan" decision now (decision, s.manual_lock, []))).1
            (fanLightStep "light" decision now
              (fanLightStep "fan" decision now (decision, s.manual_lock, []))).2.2).1,
        (fanLightStep "light" decision now
          (fanLightStep "fan" decision now (decision, s.manual_lock, []))).2.1⟩,
       (pumpStep decision s.last_decision
         (fanLightStep "light" decision now
           (fanLightStep "fan" decision now (decision, s.manual_lock, []))).1
         (fanLightStep "light" decision now
           (fanLightStep "fan" decision now (decision, s.manual_lock, []))).2.2).2,
       (pumpStep decision s.last_decision
         (fanLightStep "light" decision now
           (fanLightStep "fan" decision now (decision, s.manual_lock, []))).1
         (fanLightStep "light" decision now
           (fanLightStep "fan" decision now (decision, s.manual_lock, []))).2.2).1⟩ := by
  simp only [decide_actuators]
  rw [if_pos h]

/-- An active lock's entry is propagated to `lockActive` checks through any
map with the same entry for that device. -/
theorem lockActive_eq_of_dget_eq (l1 l2 : List (String × (String × Expiry)))
    (dev : String) (now : ℤ) (h : dget l1 dev = dget l2 dev) :
    lockActive l1 dev now = lockActive l2 dev now := by
  unfold lockActive
  rw [h]

/-! ## Claim theorems -/

/-- Claim C1: whenever a fan or light override is active (non-empty locked
state, unexpired), a `decide_actuators` tick returns the locked state as
that device's effective decision, issues no effector command for that
device at all, and stores the locked state back into `last_decision` —
whatever the oracle decided for it. -/
theorem C1_override_precedence (dev f l p ls : String) (e : Expiry)
    (now : ℤ) (s : GState)
    (hdev : dev = "fan" ∨ dev = "light")
    (hlock : dget s.manual_lock dev = some (ls, e))
    (hls : ls ≠ "") (hexp : expiryLt now e = true) :
    dget (decide_actuators (some (mkDecision f l p)) now s).ret dev = some ls ∧
    (∀ c, Eff.tas dev c ∉ (decide_actuators (some (mkDecision f l p)) now s).effs) ∧
    dget (decide_actuators (some (mkDecision f l p)) now s).s.last_decision dev
      = some ls := by
  rw [decide_actuators_valid (mkDecision f l p) now s (mkDecision_hasKeys f l p)]
  rcases hdev with rfl | rfl
  · -- dev = "fan": the fan iteration takes the locked branch
    have hfan :=
      fanLightStep_locked "fan" (mkDecision f l p) now
        ((mkDecision f l p), s.manual_lock, ([] : List Eff)) hlock hls hexp
    rw [hfan]
    have hA1 : dget (fanLightStep "light" (mkDecision f l p) now
        (dset (mkDecision f l p) "fan" ls, s.manual_lock, ([] : List Eff))).1 "fan"
        = some ls := by
      rw [fanLightStep_final_ne "light" (mkDecision f l p) now _ (by decide)]
      exact dget_dset_self (mkDecision f l p) "fan" ls
    have hnodup : (((pumpStep (mkDecision f l p) s.last_decision
        (fanLightStep "light" (mkDecision f l p) now
          (dset (mkDecision f l p) "fan" ls, s.manual_lock, ([] : List Eff))).1
        (fanLightStep "light" (mkDecision f l p) now
          (dset (mkDecision f l p) "fan" ls, s.manual_lock, ([] : List Eff))).2.2).1).map
            Prod.fst).Nodup := by
      apply pumpStep_keys_nodup
      apply fanLightStep_keys_nodup
      exact nodup_keys_dset (mkDecision f l p) "fan" ls (nodup_keys_mkDecision f l p)
    have hP1 : dget (pumpStep (mkDecision f l p) s.last_decision
        (fanLightStep "light" (mkDecision f l p) now
          (dset (mkDecision f l p) "fan" ls, s.manual_lock, ([] : List Eff))).1
        (fanLightStep "light" (mkDecision f l p) now
          (dset (mkDecision f l p) "fan" ls, s.manual_lock, ([] : List Eff))).2.2).1 "fan"
        = some ls := by
      rw [pumpStep_final_ne _ _ _ _ (by decide)]
      exact hA1
    refine ⟨hP1, ?_, dget_dupdate_of_some s.last_decision _ "fan" ls hnodup hP1⟩
    intro c hc
    rcases pumpStep_effs_mem _ _ _ _ hc with hm | hm
    · rcases fanLightStep_effs_mem "light" _ now _ hm with hm2 | ⟨c', hc'⟩
      · exact absurd hm2 (List.not_mem_nil _)
      · injection hc' with hd1 hd2
        exact absurd hd1 (by decide)
    · exact absurd hm (by intro h; cases h)
  · -- dev = "light": the light iteration takes the locked branch
    have hlock1 : dget (fanLightStep "fan" (mkDecision f l p) now
        ((mkDecision f l p), s.manual_lock, ([] : List Eff))).2.1 "light"
        = some (ls, e) := by
      rw [fanLightStep_lock_ne "fan" (mkDecision f l p) now _ (by decide)]
      exact hlock
    have hlight :=
      fanLightStep_locked "light" (mkDecision f l p) now
        (fanLightStep "fan" (mkDecision f l p) now
          ((mkDecision f l p), s.manual_lock, ([] : List Eff))) hlock1 hls hexp
    rw [hlight]
    have hA1 : dget (dset (fanLightStep "fan" (mkDecision f l p) now
        ((mkDecision f l p), s.manual_lock, ([] : List Eff))).1 "light" ls) "light"
        = some ls :=
      dget_dset_self _ "light" ls
    have hnodup : (((pumpStep (mkDecision f l p) s.last_decision
        (dset (fanLightStep "fan" (mkDecision f l p) now
          ((mkDecision f l p), s.manual_lock, ([] : List Eff))).1 "light" ls)
        (fanLightStep "fan" (mkDecision f l p) now
          ((mkDecision f l p), s.manual_lock, ([] : List Eff))).2.2).1).map
            Prod.fst).Nodup := by
      apply pumpStep_keys_nodup
      apply nodup_keys_dset
      exact fanLightStep_keys_nodup "fan" (mkDecision f l p) now _
        (nodup_keys_mkDecision f l p)
    have hP1 : dget (pumpStep (mkDecision f l p) s.last_decision
        (dset (fanLightStep "fan" (mkDecision f l p) now
          ((mkDecision f l p), s.manual_lock, ([] : List Eff))).1 "light" ls)
        (fanLightStep "fan" (mkDecision f l p) now
          ((mkDecision f l p), s.manual_lock, ([] : List Eff))).2.2).1 "light"
        = some ls := by
      rw [pumpStep_final_ne _ _ _ _ (by decide)]
      exact hA1
    refine ⟨hP1, ?_, dget_dupdate_of_some s.last_decision _ "light" ls hnodup hP1⟩
    intro c hc
    rcases pumpStep_effs_mem _ _ _ _ hc with hm | hm
    · rcases fanLightStep_effs_mem "fan" _ now _ hm with hm2 | ⟨c', hc'⟩
      · exact absurd hm2 (List.not_mem_nil _)
      · injection hc' with hd1 hd2
        exact absurd hd1 (by decide)
    · exact absurd hm (by intro h; cases h)

/-- Witness for C1 at a concrete input: fan locked `on` indefinitely, the
oracle proposes fan `off`. -/
theorem C1_override_precedence_witness :
    dget overrideState.manual_lock "fan" = some ("on", Expiry.inf) ∧
    dget (decide_actuators (some (mkDecision "off" "on" "off")) 0 overrideState).ret "fan"
      = some "on" ∧
    (∀ c, Eff.tas "fan" c ∉
      (decide_actuators (some (mkDecision "off" "on" "off")) 0 overrideState).effs) ∧
    dget (decide_actuators (some (mkDecision "off" "on" "off")) 0
      overrideState).s.last_decision "fan" = some "on" := by
  have h := C1_override_precedence "fan" "off" "on" "off" "on" Expiry.inf 0
    overrideState (Or.inl rfl) (by decide) (by decide) rfl
  exact ⟨by decide, h.1, h.2.1, h.2.2⟩

/-- Claim C3: a malformed oracle response (JSON parse error, or any of the
keys `fan`, `light`, `pump` missing) leaves the shared state exactly as it
was, issues no effect, and returns the previous `last_decision`. -/
theorem C3_failsafe_hold (resp : Option (List (String × String))) (now : ℤ)
    (s : GState)
    (h : resp = none ∨ ∃ d, resp = some d ∧
      (hasKey d "fan" && hasKey d "light" && hasKey d "pump") = false) :
    decide_actuators resp now s = ⟨s, [], s.last_decision⟩ := by
  rcases h with rfl | ⟨d, rfl, hd⟩
  · rfl
  · simp only [decide_actuators]
    rw [if_neg]
    simp [hd]

/-- Witness for C3 at a concrete input: a response missing `light` and
`pump`. -/
theorem C3_failsafe_hold_witness :
    decide_actuators (some [("fan", "on")]) 7 overrideState
      = ⟨overrideState, [], overrideState.last_decision⟩ :=
  C3_failsafe_hold (some [("fan", "on")]) 7 overrideState
    (Or.inr ⟨[("fan", "on")], rfl, by decide⟩)

/-- Claim C6: an override whose finite expiry lies in the past is treated
as absent by the arbitration tick even though no release task has fired:
the oracle's decision is returned and stored for the device, the effector
command for the oracle's decision is issued, and the expired lock entry is
removed from `manual_lock`. -/
theorem C6_expired_override_ignored (dev f l p ls v : String) (t now : ℤ)
    (s : GState)
    (hdev : dev = "fan" ∨ dev = "light")
    (hlock : dget s.manual_lock dev = some (ls, Expiry.fin t))
    (hpast : t < now)
    (hv : dget (mkDecision f l p) dev = some v) :
    dget (decide_actuators (some (mkDecision f l p)) now s).ret dev = some v ∧
    Eff.tas dev (if v = "on" then "On" else "Off") ∈
      (decide_actuators (some (mkDecision f l p)) now s).effs ∧
    dget (decide_actuators (some (mkDecision f l p)) now s).s.manual_lock dev
      = none ∧
    dget (decide_actuators (some (mkDecision f l p)) now s).s.last_decision dev
      = some v := by
  have hlt : expiryLt now (Expiry.fin t) = false := by
    simp only [expiryLt, decide_eq_false_iff_not]
    omega
  rw [decide_actuators_valid (mkDecision f l p) now s (mkDecision_hasKeys f l p)]
  rcases hdev with rfl | rfl
  · -- dev = "fan"
    rw [dget_mkDecision_fan] at hv
    obtain rfl : f = v := Option.some.inj hv
    have hcmd : (if dget (mkDecision f l p) "fan" = some "on" then "On" else "Off")
        = (if f = "on" then "On" else "Off") := by
      rw [dget_mkDecision_fan]
      simp only [Option.some.injEq]
    have hfan :=
      fanLightStep_expired "fan" (mkDecision f l p) now
        ((mkDecision f l p), s.manual_lock, ([] : List Eff)) hlock hlt
    rw [hfan]
    have hA1 : dget (fanLightStep "light" (mkDecision f l p) now
        ((mkDecision f l p), dpop s.manual_lock "fan",
          [] ++ [Eff.tas "fan" (if dget (mkDecision f l p) "fan" = some "on"
            then "On" else "Off")])).1 "fan" = some f := by
      rw [fanLightStep_final_ne "light" (mkDecision f l p) now _ (by decide)]
      exact dget_mkDecision_fan f l p
    have hP1 : dget (pumpStep (mkDecision f l p) s.last_decision
        (fanLightStep "light" (mkDecision f l p) now
          ((mkDecision f l p), dpop s.manual_lock "fan",
            [] ++ [Eff.tas "fan" (if dget (mkDecision f l p) "fan" = some "on"
              then "On" else "Off")])).1
        (fanLightStep "light" (mkDecision f l p) now
          ((mkDecision f l p), dpop s.manual_lock "fan",
            [] ++ [Eff.tas "fan" (if dget (mkDecision f l p) "fan" = some "on"
              then "On" else "Off")])).2.2).1 "fan" = some f := by
      rw [pumpStep_final_ne _ _ _ _ (by decide)]
      exact hA1
    have hnodup : (((pumpStep (mkDecision f l p) s.last_decision
        (fanLightStep "light" (mkDecision f l p) now
          ((mkDecision f l p), dpop s.manual_lock "fan",
            [] ++ [Eff.tas "fan" (if dget (mkDecision f l p) "fan" = some "on"
              then "On" else "Off")])).1
        (fanLightStep "light" (mkDecision f l p) now
          ((mkDecision f l p), dpop s.manual_lock "fan",
            [] ++ [Eff.tas "fan" (if dget (mkDecision f l p) "fan" = some "on"
              then "On" else "Off")])).2.2).1).map Prod.fst).Nodup := by
      apply pumpStep_keys_nodup
      apply fanLightStep_keys_nodup
      exact nodup_keys_mkDecision f l p
    refine ⟨hP1, ?_, ?_, dget_dupdate_of_some s.last_decision _ "fan" f hnodup hP1⟩
    · rw [← hcmd]
      apply pumpStep_effs_mono
      apply fanLightStep_effs_mono
      simp
    · rw [fanLightStep_lock_ne "light" (mkDecision f l p) now _ (by decide)]
      exact dget_dpop_self s.manual_lock "fan"
  · -- dev = "light"
    rw [dget_mkDecision_light] at hv
    obtain rfl : l = v := Option.some.inj hv
    have hcmd : (if dget (mkDecision f l p) "light" = some "on" then "On" else "Off")
        = (if l = "on" then "On" else "Off") := by
      rw [dget_mkDecision_light]
      simp only [Option.some.injEq]
    have hlock1 : dget (fanLightStep "fan" (mkDecision f l p) now
        ((mkDecision f l p), s.manual_lock, ([] : List Eff))).2.1 "light"
        = some (ls, Expiry.fin t) := by
      rw [fanLightStep_lock_ne "fan" (mkDecision f l p) now _ (by decide)]
      exact hlock
    have hlight :=
      fanLightStep_expired "light" (mkDecision f l p) now
        (fanLightStep "fan" (mkDecision f l p) now
          ((mkDecision f l p), s.manual_lock, ([] : List Eff))) hlock1 hlt
    rw [hlight]
    have hA1 : dget (fanLightStep "fan" (mkDecision f l p) now
        ((mkDecision f l p), s.manual_lock, ([] : List Eff))).1 "light"
        = some l := by
      rw [fanLightStep_final_ne "fan" (mkDecision f l p) now _ (by decide)]
      exact dget_mkDecision_light f l p
    have hP1 : dget (pumpStep (mkDecision f l p) s.last_decision
        (fanLightStep "fan" (mkDecision f l p) now
          ((mkDecision f l p), s.manual_lock, ([] : List Eff))).1
        ((fanLightStep "fan" (mkDecision f l p) now
          ((mkDecision f l p), s.manual_lock, ([] : List Eff))).2.2 ++
          [Eff.tas "light" (if dget (mkDecision f l p) "light" = some "on"
            then "On" else "Off")])).1 "light" = some l := by
      rw [pumpStep_final_ne _ _ _ _ (by decide)]
      exact hA1
    have hnodup : (((pumpStep (mkDecision f l p) s.last_decision
        (fanLightStep "fan" (mkDecision f l p) now
          ((mkDecision f l p), s.manual_lock, ([] : List Eff))).1
        ((fanLightStep "fan" (mkDecision f l p) now
          ((mkDecision f l p), s.manual_lock, ([] : List Eff))).2.2 ++
          [Eff.tas "light" (if dget (mkDecision f l p) "light" = some "on"
            then "On" else "Off")])).1).map Prod.fst).Nodup := by
      apply pumpStep_keys_nodup
      apply fanLightStep_keys_nodup
      exact nodup_keys_mkDecision f l p
    refine ⟨hP1, ?_, ?_, dget_dupdate_of_some s.last_decision _ "light" l hnodup hP1⟩
    · rw [← hcmd]
      apply pumpStep_effs_mono
      simp
    · exact dget_dpop_self _ "light"

/-- Witness for C6 at a concrete input: the fan lock expired at 50, the
tick runs at 100, the oracle proposes fan `off`. -/
theorem C6_expired_override_ignored_witness :
    dget expiredState.manual_lock "fan" = some ("on", Expiry.fin 50) ∧
    dget (decide_actuators (some (mkDecision "off" "on" "off")) 100 expiredState).ret "fan"
      = some "off" ∧
    Eff.tas "fan" "Off" ∈
      (decide_actuators (some (mkDecision "off" "on" "off")) 100 expiredState).effs ∧
    dget (decide_actuators (some (mkDecision "off" "on" "off")) 100
      expiredState).s.manual_lock "fan" = none ∧
    dget (decide_actuators (some (mkDecision "off" "on" "off")) 100
      expiredState).s.last_decision "fan" = some "off" := by
  have h := C6_expired_override_ignored "fan" "off" "on" "off" "on" "off" 50 100
    expiredState (Or.inl rfl) (by decide) (by decide) (by decide)
  exact ⟨by decide, h.1, h.2.1, h.2.2.1, h.2.2.2⟩

/-- Claim C9: a manual `toggle` on fan or light sends the literal `Toggle`
power command to the device, yet records the state as `off` in both
`last_decision` and the created manual lock, whatever the physical device
ends up doing — only the literal command `On` is recorded as `on`. -/
theorem C9_toggle_recorded_off (dev : String)
    (payload : Option (List (String × ℤ))) (now : ℤ) (s : GState)
    (hdev : dev = "fan" ∨ dev = "light") :
    (toggle_device dev "toggle" payload now s).effs = [Eff.tas dev "Toggle"] ∧
    dget (toggle_device dev "toggle" payload now s).s.last_decision dev
      = some "off" ∧
    (∃ e, dget (toggle_device dev "toggle" payload now s).s.manual_lock dev
      = some ("off", e)) := by
  have h1 : pyLower "toggle" = "toggle" := by decide
  have h2 : pyCapitalize "toggle" = "Toggle" := by decide
  rcases hdev with rfl | rfl
  · have hlk : dget (toggle_device "fan" "toggle" payload now s).s.manual_lock "fan"
        = some ("off", (if payloadDuration payload 0 0 = 0 then Expiry.inf
          else Expiry.fin (now + payloadDuration payload 0 0 * 60))) := by
      simp [toggle_device, h1, h2, dget_dset_self]
    exact ⟨by simp [toggle_device, h1, h2],
           by simp [toggle_device, h1, h2, dget_dset_self],
           ⟨_, hlk⟩⟩
  · have hlk : dget (toggle_device "light" "toggle" payload now s).s.manual_lock "light"
        = some ("off", (if payloadDuration payload 0 0 = 0 then Expiry.inf
          else Expiry.fin (now + payloadDuration payload 0 0 * 60))) := by
      simp [toggle_device, h1, h2, dget_dset_self]
    exact ⟨by simp [toggle_device, h1, h2],
           by simp [toggle_device, h1, h2, dget_dset_self],
           ⟨_, hlk⟩⟩

/-- Witness for C9 at a concrete input: toggling the light for 5 minutes. -/
theorem C9_toggle_recorded_off_witness :
    (toggle_device "light" "toggle" (some [("duration", 5)]) 0 initState).effs
      = [Eff.tas "light" "Toggle"] ∧
    dget (toggle_device "light" "toggle" (some [("duration", 5)]) 0
      initState).s.last_decision "light" = some "off" ∧
    (∃ e, dget (toggle_device "light" "toggle" (some [("duration", 5)]) 0
      initState).s.manual_lock "light" = some ("off", e)) :=
  C9_toggle_recorded_off "light" (some [("duration", 5)]) 0 initState (Or.inr rfl)

/-- Counterexample to claim C2 as stated: override A (fan `on`, 1 minute,
issued at t=0) schedules a release; override B (fan `on`, 10 minutes,
issued at t=30) supersedes it; when A's release fires it is not a no-op —
it issues a `Power Off` command, removes B's still-active lock, and
overwrites the stored state B had set. -/
theorem C2_stale_release_cex :
    (toggle_device "fan" "on" (some [("duration", 1)]) 0 initState).sched
      = some ("fan", "off", 1) ∧
    dget (toggle_device "fan" "on" (some [("duration", 10)]) 30
      (toggle_device "fan" "on" (some [("duration", 1)]) 0 initState).s).s.manual_lock
      "fan" = some ("on", Expiry.fin 630) ∧
    dget (auto_release "fan" "off"
      (toggle_device "fan" "on" (some [("duration", 10)]) 30
        (toggle_device "fan" "on" (some [("duration", 1)]) 0 initState).s).s).1.manual_lock
      "fan" = none ∧
    dget (auto_release "fan" "off"
      (toggle_device "fan" "on" (some [("duration", 10)]) 30
        (toggle_device "fan" "on" (some [("duration", 1)]) 0 initState).s).s).1.last_decision
      "fan" = some "off" ∧
    (auto_release "fan" "off"
      (toggle_device "fan" "on" (some [("duration", 10)]) 30
        (toggle_device "fan" "on" (some [("duration", 1)]) 0 initState).s).s).2
      = [Eff.tas "fan" "Off"] := by
  decide

/-- Claim C2 amended: `_auto_release` performs no ownership or generation
check — whatever override currently holds the device (in particular a
newer override B installed after the release was scheduled), the firing
release issues the effector command for its own desired state, removes
the stored override, and overwrites the stored state. -/
theorem C2_stale_release_clobbers (dev desired : String) (s : GState)
    (lsB : String) (eB : Expiry)
    (_hB : dget s.manual_lock dev = some (lsB, eB)) :
    dget (auto_release dev desired s).1.manual_lock dev = none ∧
    dget (auto_release dev desired s).1.last_decision dev = some desired ∧
    (auto_release dev desired s).2 = [Eff.tas dev (pyCapitalize desired)] :=
  ⟨dget_dpop_self s.manual_lock dev, dget_dset_self s.last_decision dev desired, rfl⟩

/-- Witness for the amended C2 at a concrete input: releasing the fan to
`off` while an indefinite `on` override is in place. -/
theorem C2_stale_release_clobbers_witness :
    dget (auto_release "fan" "off" overrideState).1.manual_lock "fan" = none ∧
    dget (auto_release "fan" "off" overrideState).1.last_decision "fan"
      = some "off" ∧
    (auto_release "fan" "off" overrideState).2 = [Eff.tas "fan" "Off"] :=
  C2_stale_release_clobbers "fan" "off" overrideState "on" Expiry.inf (by decide)

/-- Counterexample to claim C4 as stated: with no override and the oracle
deciding fan `off` while the stored fan state is already `off`, the tick
still issues the (redundant) `Power Off` effector command. -/
theorem C4_suppression_cex :
    dget initState.last_decision "fan" = some "off" ∧
    dget initState.manual_lock "fan" = none ∧
    Eff.tas "fan" "Off" ∈
      (decide_actuators (some (mkDecision "off" "off" "off")) 0 initState).effs := by
  decide

/-- Claim C4 amended: for a continuous device without an active override,
the effector command for the oracle's decision is issued on **every**
tick, whether or not it differs from the stored state; the store is then
updated with the oracle's decision. There is no idempotent command
suppression in the code. -/
theorem C4_no_suppression (dev f l p v : String) (now : ℤ) (s : GState)
    (hdev : dev = "fan" ∨ dev = "light")
    (hinact : lockActive s.manual_lock dev now = false)
    (hv : dget (mkDecision f l p) dev = some v) :
    Eff.tas dev (if v = "on" then "On" else "Off") ∈
      (decide_actuators (some (mkDecision f l p)) now s).effs ∧
    dget (decide_actuators (some (mkDecision f l p)) now s).s.last_decision dev
      = some v := by
  rw [decide_actuators_valid (mkDecision f l p) now s (mkDecision_hasKeys f l p)]
  rcases hdev with rfl | rfl
  · -- dev = "fan"
    rw [dget_mkDecision_fan] at hv
    obtain rfl : f = v := Option.some.inj hv
    have hcmd : (if dget (mkDecision f l p) "fan" = some "on" then "On" else "Off")
        = (if f = "on" then "On" else "Off") := by
      rw [dget_mkDecision_fan]
      simp only [Option.some.injEq]
    have hstep := fanLightStep_inactive "fan" (mkDecision f l p) now
      ((mkDecision f l p), s.manual_lock, ([] : List Eff)) hinact
    have hP1 : dget (pumpStep (mkDecision f l p) s.last_decision
        (fanLightStep "light" (mkDecision f l p) now
          (fanLightStep "fan" (mkDecision f l p) now
            ((mkDecision f l p), s.manual_lock, ([] : List Eff)))).1
        (fanLightStep "light" (mkDecision f l p) now
          (fanLightStep "fan" (mkDecision f l p) now
            ((mkDecision f l p), s.manual_lock, ([] : List Eff)))).2.2).1 "fan"
        = some f := by
      rw [pumpStep_final_ne _ _ _ _ (by decide),
        fanLightStep_final_ne "light" (mkDecision f l p) now _ (by decide),
        hstep.1]
      exact dget_mkDecision_fan f l p
    have hnodup : (((pumpStep (mkDecision f l p) s.last_decision
        (fanLightStep "light" (mkDecision f l p) now
          (fanLightStep "fan" (mkDecision f l p) now
            ((mkDecision f l p), s.manual_lock, ([] : List Eff)))).1
        (fanLightStep "light" (mkDecision f l p) now
          (fanLightStep "fan" (mkDecision f l p) now
            ((mkDecision f l p), s.manual_lock, ([] : List Eff)))).2.2).1).map
          Prod.fst).Nodup := by
      apply pumpStep_keys_nodup
      apply fanLightStep_keys_nodup
      apply fanLightStep_keys_nodup
      exact nodup_keys_mkDecision f l p
    refine ⟨?_, dget_dupdate_of_some s.last_decision _ "fan" f hnodup hP1⟩
    rw [← hcmd]
    apply pumpStep_effs_mono
    apply fanLightStep_effs_mono
    exact hstep.2
  · -- dev = "light"
    rw [dget_mkDecision_light] at hv
    obtain rfl : l = v := Option.some.inj hv
    have hcmd : (if dget (mkDecision f l p) "light" = some "on" then "On" else "Off")
        = (if l = "on" then "On" else "Off") := by
      rw [dget_mkDecision_light]
      simp only [Option.some.injEq]
    have hinact1 : lockActive (fanLightStep "fan" (mkDecision f l p) now
        ((mkDecision f l p), s.manual_lock, ([] : List Eff))).2.1 "light" now
        = false := by
      rw [lockActive_eq_of_dget_eq _ s.manual_lock "light" now
        (fanLightStep_lock_ne "fan" (mkDecision f l p) now _ (by decide))]
      exact hinact
    have hstep := fanLightStep_inactive "light" (mkDecision f l p) now
      (fanLightStep "fan" (mkDecision f l p) now
        ((mkDecision f l p), s.manual_lock, ([] : List Eff))) hinact1
    have hP1 : dget (pumpStep (mkDecision f l p) s.last_decision
        (fanLightStep "light" (mkDecision f l p) now
          (fanLightStep "fan" (mkDecision f l p) now
            ((mkDecision f l p), s.manual_lock, ([] : List Eff)))).1
        (fanLightStep "light" (mkDecision f l p) now
          (fanLightStep "fan" (mkDecision f l p) now
            ((mkDecision f l p), s.manual_lock, ([] : List Eff)))).2.2).1 "light"
        = some l := by
      rw [pumpStep_final_ne _ _ _ _ (by decide), hstep.1,
        fanLightStep_final_ne "fan" (mkDecision f l p) now _ (by decide)]
      exact dget_mkDecision_light f l p
    have hnodup : (((pumpStep (mkDecision f l p) s.last_decision
        (fanLightStep "light" (mkDecision f l p) now
          (fanLightStep "fan" (mkDecision f l p) now
            ((mkDecision f l p), s.manual_lock, ([] : List Eff)))).1
        (fanLightStep "light" (mkDecision f l p) now
          (fanLightStep "fan" (mkDecision f l p) now
            ((mkDecision f l p), s.manual_lock, ([] : List Eff)))).2.2).1).map
          Prod.fst).Nodup := by
      apply pumpStep_keys_nodup
      apply fanLightStep_keys_nodup
      apply fanLightStep_keys_nodup
      exact nodup_keys_mkDecision f l p
    refine ⟨?_, dget_dupdate_of_some s.last_decision _ "light" l hnodup hP1⟩
    rw [← hcmd]
    apply pumpStep_effs_mono
    exact hstep.2

/-- Witness for the amended C4 at a concrete input: stored fan `off`,
oracle fan `off`, no lock — the redundant command is still issued and the
store keeps `off`. -/
theorem C4_no_suppression_witness :
    Eff.tas "fan" "Off" ∈
      (decide_actuators (some (mkDecision "off" "off" "off")) 0 initState).effs ∧
    dget (decide_actuators (some (mkDecision "off" "off" "off")) 0
      initState).s.last_decision "fan" = some "off" := by
  have h := C4_no_suppression "fan" "off" "off" "off" "off" 0 initState
    (Or.inl rfl) (by decide) (by decide)
  exact ⟨h.1, h.2⟩

/-- Counterexample to claim C5 as stated: with a run already in flight
(stored pump `on`), the manual pump endpoint still spawns a run thread
and answers `{"status": "watering", "duration": 3}` — it consults no
state and there is no `{started: false}` response anywhere in the code. -/
theorem C5_pump_exclusivity_cex :
    dget pumpOnState.last_decision "pump" = some "on" ∧
    (water_pump (some [("duration", 3)])).2 = true ∧
    (water_pump (some [("duration", 3)])).1 = ⟨"watering", 3⟩ := by
  decide

/-- Claim C5 amended: only the automatic tick path is exclusive — it does
not spawn a run while the stored pump state is `on`; the manual pump
endpoint performs no exclusivity check at all: for every request it
spawns a new run thread and returns `status: watering`, so a second
concurrent run is possible and `started: false` is never returned. -/
theorem C5_pump_exclusivity_split :
    (∀ (f l p : String) (now : ℤ) (s : GState),
      dget s.last_decision "pump" = some "on" →
      Eff.pumpStart ∉ (decide_actuators (some (mkDecision f l p)) now s).effs) ∧
    (∀ payload : Option (List (String × ℤ)),
      (water_pump payload).2 = true ∧ (water_pump payload).1.status = "watering") := by
  constructor
  · intro f l p now s hon hmem
    rw [decide_actuators_valid (mkDecision f l p) now s (mkDecision_hasKeys f l p)]
      at hmem
    rw [pumpStep_effs_of_pump_on _ _ _ _ hon] at hmem
    rcases fanLightStep_effs_mem "light" _ now _ hmem with hm | ⟨c, hc⟩
    · rcases fanLightStep_effs_mem "fan" _ now _ hm with hm2 | ⟨c, hc⟩
      · exact List.not_mem_nil _ hm2
      · cases hc
    · cases hc
  · intro payload
    exact ⟨rfl, rfl⟩

/-- Witness for the amended C5 at a concrete input. -/
theorem C5_pump_exclusivity_split_witness :
    Eff.pumpStart ∉
      (decide_actuators (some (mkDecision "off" "off" "on")) 0 pumpOnState).effs ∧
    (water_pump none).2 = true :=
  ⟨C5_pump_exclusivity_split.1 "off" "off" "on" 0 pumpOnState (by decide),
   (C5_pump_exclusivity_split.2 none).1⟩

/-- Counterexample to claim C7 as stated: when the driver raises during an
automatic run, `_run_pump` dies without any handler and the stored pump
state is left `on` — the run is stuck, contradicting the claimed cleanup
for both paths. -/
theorem C7_driver_failure_cex :
    (runPumpAuto true initState).2 = false ∧
    dget (runPumpAuto true initState).1.last_decision "pump" = some "on" := by
  decide

/-- Claim C7 amended: only the manual endpoint's run body guarantees the
reset — its `finally` always stores pump `off`, driver failure or not.
The automatic path's `_run_pump` resets only on success; when the driver
raises, the stored pump state is left `on`. -/
theorem C7_cleanup_manual_only :
    (∀ (fails : Bool) (s : GState),
      dget (runPumpManual fails s).last_decision "pump" = some "off") ∧
    (∀ s : GState,
      dget (runPumpAuto false s).1.last_decision "pump" = some "off") ∧
    (∀ s : GState,
      dget (runPumpAuto true s).1.last_decision "pump" = some "on") :=
  ⟨fun _ s => dget_dset_self (dset s.last_decision "pump" "on") "pump" "off",
   fun s => dget_dset_self (dset s.last_decision "pump" "on") "pump" "off",
   fun s => dget_dset_self s.last_decision "pump" "on"⟩

/-- Counterexample to claim C8 as stated: a pump run is in flight (stored
pump `on`) and the oracle decides pump `off`; the arbitration tick itself
forces the stored pump state to `off` — it is not left to the run's own
completion. -/
theorem C8_forced_off_cex :
    dget pumpOnState.last_decision "pump" = some "on" ∧
    dget (decide_actuators (some (mkDecision "off" "off" "off")) 0
      pumpOnState).s.last_decision "pump" = some "off" := by
  decide

/-- Claim C8 amended: on an oracle pump decision of `off`, arbitration
immediately writes `off` into the stored pump state (even mid-run); it
emits no pump effect, so the in-flight run thread is indeed not cut
short and completes on its own. -/
theorem C8_off_is_forced (f l : String) (now : ℤ) (s : GState) :
    dget (decide_actuators (some (mkDecision f l "off")) now
      s).s.last_decision "pump" = some "off" ∧
    Eff.pumpStart ∉ (decide_actuators (some (mkDecision f l "off")) now s).effs := by
  rw [decide_actuators_valid (mkDecision f l "off") now s
    (mkDecision_hasKeys f l "off")]
  have hoff : dget (mkDecision f l "off") "pump" = some "off" :=
    dget_mkDecision_pump f l "off"
  have hps := pumpStep_off (mkDecision f l "off") s.last_decision
    (fanLightStep "light" (mkDecision f l "off") now
      (fanLightStep "fan" (mkDecision f l "off") now
        ((mkDecision f l "off"), s.manual_lock, ([] : List Eff)))).1
    (fanLightStep "light" (mkDecision f l "off") now
      (fanLightStep "fan" (mkDecision f l "off") now
        ((mkDecision f l "off"), s.manual_lock, ([] : List Eff)))).2.2 hoff
  rw [hps]
  constructor
  · apply dget_dupdate_of_some
    · apply nodup_keys_dset
      apply fanLightStep_keys_nodup
      apply fanLightStep_keys_nodup
      exact nodup_keys_mkDecision f l "off"
    · exact dget_dset_self _ "pump" "off"
  · intro hmem
    rcases fanLightStep_effs_mem "light" _ now _ hmem with hm | ⟨c, hc⟩
    · rcases fanLightStep_effs_mem "fan" _ now _ hm with hm2 | ⟨c, hc⟩
      · exact List.not_mem_nil _ hm2
      · cases hc
    · cases hc

/-- Counterexample to claim C10 as stated: an empty JSON object body is a
present body lacking the `duration` key, yet it runs the pump for 2
seconds, not 5 — Python's falsy empty dict takes the no-body branch. -/
theorem C10_default_duration_cex :
    (water_pump (some ([] : List (String × ℤ)))).1.duration = 2 ∧
    (water_pump (some ([] : List (String × ℤ)))).1.duration ≠ 5 := by
  decide

/-- Claim C10 amended: the manual pump default is indeed inconsistent, but
the split is on truthiness rather than presence: no body at all **or** an
empty object body gives 2 seconds, while a non-empty body lacking the
`duration` key gives 5 seconds. -/
theorem C10_default_durations :
    (water_pump none).1.duration = 2 ∧
    (water_pump (some ([] : List (String × ℤ)))).1.duration = 2 ∧
    (∀ p : List (String × ℤ), p ≠ [] → dget p "duration" = none →
      (water_pump (some p)).1.duration = 5) := by
  refine ⟨rfl, rfl, fun p hne hk => ?_⟩
  show payloadDuration (some p) 5 2 = 5
  have hred : payloadDuration (some p) 5 2
      = if p.isEmpty then 2 else (dget p "duration").getD 5 := rfl
  rw [hred, if_neg (by simpa using hne), hk]
  rfl

/-- Witness for the amended C10 at a concrete input: a non-empty body
without `duration`. -/
theorem C10_default_durations_witness :
    (water_pump (some [("force", 1)])).1.duration = 5 :=
  C10_default_durations.2.2 [("force", 1)] (by decide) (by decide)

end Growbox
